import Mathlib

/-!
Shallow embedding of the c3s-eqc-data-checker core
(`c3s_eqc_data_checker/check.py` and `c3s_eqc_data_checker/cli.py`)
and proofs about its check/dispatch logic.

File metadata (global attributes, formats, datasets) is modelled as an
environment mapping a file path to that file's metadata; dictionaries are
modelled as association lists in insertion order (Python dicts preserve
insertion order, keys are unique).
-/

set_option autoImplicit false

namespace DataChecker

/-- Scalar values stored in attribute / dimension-size mappings
(strings or integer sizes, as TOML configs and xarray attrs provide). -/
inductive Value where
  | str (s : String)
  | nat (n : Nat)
  deriving DecidableEq

/-- Python str() applied to a Value. -/
def Value.toStr : Value → String
  | .str s => s
  | .nat n => toString n

/-- Python dict lookup: first binding of the key in an association list. -/
def lookup {α : Type} : List (String × α) → String → Option α
  | [], _ => none
  | (k, v) :: rest, key => if k = key then some v else lookup rest key

/-- Keys of an association list. -/
def keys {α : Type} (l : List (String × α)) : List String :=
  l.map Prod.fst

/-- Embedding of `check_attributes_or_sizes(expected, actual, always_check_value)`
(check.py lines 40-52).  For each expected key in order: if the key is absent
from `actual` the error value is `none` (Python `None`); otherwise, when
`always_check_value` is set or the expected value is not the empty string,
and the actual value differs, the error value is the actual value. -/
def check_attributes_or_sizes :
    List (String × Value) → List (String × Value) → Bool → List (String × Option Value)
  | [], _, _ => []
  | (key, value) :: rest, actual, acv =>
    (match lookup actual key with
     | none => [(key, (none : Option Value))]
     | some a =>
       if (acv = true ∨ value ≠ Value.str "") ∧ a ≠ value then [(key, some a)] else []) ++
    check_attributes_or_sizes rest actual acv

/-- Embedding of `Checker._check_global_attrs_or_sizes` (check.py lines
207-218): iterate the matched paths, read the file's attribute mapping from
the environment `env`, and record a per-file entry only when the comparison
reports at least one error. -/
def check_global_attrs_or_sizes (env : String → List (String × Value))
    (expected : List (String × Value)) :
    List String → List (String × List (String × Option Value))
  | [] => []
  | path :: rest =>
    (let error := check_attributes_or_sizes expected (env path) false
     if error = [] then [] else [(path, error)]) ++
    check_global_attrs_or_sizes env expected rest

/-- Embedding of `Checker.check_global_attributes` (check.py lines 220-234):
the environment reads each file's `global_attrs`. -/
def check_global_attributes (global_attrs : String → List (String × Value))
    (expected : List (String × Value)) (paths : List String) :
    List (String × List (String × Option Value)) :=
  check_global_attrs_or_sizes global_attrs expected paths

/-- Global attributes of the example file in the spec scenario. -/
def exGlobalAttrs : String → List (String × Value) :=
  fun _ => [("a", Value.str "a"), ("b", Value.str "b"), ("c", Value.str "c")]

/-- Expected attributes of the spec scenario. -/
def exExpectedAttrs : List (String × Value) :=
  [("a", Value.str ""), ("b", Value.str "b"), ("c", Value.str "wrong"), ("d", Value.str "d")]

/-- Python str.startswith, modelled on the character lists of the strings. -/
def strStartsWith (s p : String) : Bool :=
  p.data.isPrefixOf s.data

/-- Expected format string of `Checker.check_format` (check.py line 138):
`files_format` concatenated with the version when a version is given (a falsy
version, None or the empty string, contributes nothing). -/
def expectedFmt (files_format : String) (version : Option String) : String :=
  files_format ++ (match version with | none => "" | some v => v)

/-- Embedding of `Checker.check_format` (check.py lines 125-144): the
environment reads each file's `full_format`; a file errors, with its full
format as value, iff the full format does not start with the expected format
string. -/
def check_format (files_format : String) (version : Option String)
    (env : String → String) : List String → List (String × String)
  | [] => []
  | path :: rest =>
    (let full_format := env path
     if strStartsWith full_format (expectedFmt files_format version) then []
     else [(path, full_format)]) ++
    check_format files_format version env rest

/-- Full formats of the two files in the spec scenario. -/
def exFullFormat : String → String :=
  fun p => if p = "test.nc4" then "NETCDF4_CLASSIC" else "NETCDF3_CLASSIC"

/-- Embedding of `Checker._check_spatial_resolution` (check.py lines 422-434):
expected values are converted to strings with str(), the cdo description
(`cdo_des_to_dict`, a flat string-to-string mapping read from the environment
`des`) is the actual mapping, and the comparison runs with
always_check_value=True. -/
def check_spatial_resolution (des : String → List (String × String))
    (expected : List (String × Value)) :
    List String → List (String × List (String × Option Value))
  | [] => []
  | path :: rest =>
    (let expectedS := expected.map (fun p => (p.1, Value.str p.2.toStr))
     let actualS := (des path).map (fun p => (p.1, Value.str p.2))
     let error := check_attributes_or_sizes expectedS actualS true
     if error = [] then [] else [(path, error)]) ++
    check_spatial_resolution des expected rest

/-- Grid description of the example file used to show that an empty-string
expected value is still compared verbatim by the spatial-resolution checks. -/
def exGridDes : String → List (String × String) :=
  fun _ => [("gridtype", "lonlat")]

/-- Error values of `Checker.check_temporal_resolution`: the min/max errors
hold the actual timestamp, the frequency error the set of distinct
consecutive differences.  Timestamps are modelled as integers on an abstract
regular timeline (for the monthly frequency "1MS", the unit is one month). -/
inductive TErr where
  | time (t : Int)
  | diffs (s : List Int)
  deriving DecidableEq

/-- Insertion into a sorted list, used to model `time.sortby(time)`. -/
def insertSorted (x : Int) : List Int → List Int
  | [] => [x]
  | y :: ys => if x ≤ y then x :: y :: ys else y :: insertSorted x ys

/-- Model of `xr.concat(times).sortby(time)`: sort all the collected times. -/
def sortTimes (l : List Int) : List Int :=
  l.foldr insertSorted []

/-- Model of `pd.date_range(lo, hi, freq=d)` on the abstract timeline: the
points lo, lo+d, lo+2d, ... that do not exceed hi (d positive). -/
def date_range (lo hi : Int) (d : Nat) : List Int :=
  if lo ≤ hi then
    (List.range ((hi - lo).toNat / d + 1)).map (fun i => lo + d * i)
  else []

/-- Consecutive differences, modelling `time.diff(name)`. -/
def consecutiveDiffs : List Int → List Int
  | a :: b :: rest => (b - a) :: consecutiveDiffs (b :: rest)
  | _ => []

/-- Embedding of `Checker.check_temporal_resolution` (check.py lines 309-361).
The time coordinate of every matched file (`timess`, one list per file) is
concatenated and sorted; "min"/"max" errors record the actual bound when it
differs from the expected one; when a frequency is given, the "frequency"
error records the set of distinct consecutive differences unless the observed
axis equals `pd.date_range(observed min, observed max, freq)` in both size
and values.  The empty-axis case (no file contributes a time value, on which
the source library code fails) returns no errors. -/
def check_temporal_resolution (tmin? tmax? : Option Int) (freq? : Option Nat)
    (timess : List (List Int)) : List (String × TErr) :=
  match timess.flatten with
  | [] => []
  | t :: ts =>
    let tmin := ts.foldl min t
    let tmax := ts.foldl max t
    let sorted := sortTimes (t :: ts)
    (match tmin? with
     | some m => if tmin ≠ m then [("min", TErr.time tmin)] else []
     | none => []) ++
    (match tmax? with
     | some m => if tmax ≠ m then [("max", TErr.time tmax)] else []
     | none => []) ++
    (match freq? with
     | some d =>
       let expected_time := date_range tmin tmax d
       if sorted.length ≠ expected_time.length ∨ sorted ≠ expected_time then
         [("frequency", TErr.diffs (consecutiveDiffs sorted).dedup)]
       else []
     | none => [])

/-- A variable of a dataset: its dimension names and its flattened values,
`none` standing for a null (NaN) entry. -/
structure Var where
  dims : List String
  vals : List (Option Int)
  deriving DecidableEq

/-- A dataset: its data variables plus its other variables (coordinates),
both accessible through item lookup. -/
structure DS where
  data_vars : List (String × Var)
  coords : List (String × Var)
  deriving DecidableEq

/-- Python `ds[name]`: lookup among data variables, then coordinates. -/
def dsGet (ds : DS) (name : String) : Option Var :=
  match lookup ds.data_vars name with
  | some v => some v
  | none => lookup ds.coords name

/-- Truthiness of a mask entry after `.fillna(0)`: null becomes 0 (falsy),
otherwise the value is truthy iff nonzero. -/
def fillna0Truthy (v : Option Int) : Bool :=
  match v with
  | none => false
  | some n => n ≠ 0

/-- Per-variable completeness test (check.py lines 411-418).  With no mask the
variable must have no null anywhere (`da.isnull().any()` errors); with a mask,
pointwise: where the mask is truthy the value must be non-null, where it is
falsy the value must be null when ensure_null is set and is unconstrained
otherwise (`xr.where(mask, da.notnull(), da.isnull() if ensure_null else 1)`).
Mask and variable are aligned elementwise. -/
def varOk (mask : Option Var) (ensure_null : Bool) (da : Var) : Bool :=
  match mask with
  | none => da.vals.all (fun v => v.isSome)
  | some m =>
    (m.vals.zip da.vals).all (fun p =>
      if fillna0Truthy p.1 then p.2.isSome
      else if ensure_null then p.2.isNone else true)

/-- Inner loop of `Checker.check_completeness` over the variables of one file:
`ds[var]` raises KeyError if the variable is missing, otherwise the variable
is added to the file's failing set when the completeness test fails. -/
def varsCheck (ds : DS) (mask : Option Var) (ensure_null : Bool) :
    List String → List String → Except String (List String)
  | [], errs => .ok errs
  | v :: vs, errs =>
    match dsGet ds v with
    | none => .error ("KeyError: " ++ v)
    | some da =>
      varsCheck ds mask ensure_null vs (if varOk mask ensure_null da then errs else errs ++ [v])

/-- The variable list computed on first need inside `check_completeness`
(check.py lines 401-409): all data variables when there is no mask, else the
data variables whose dimensions contain all the mask's dimensions. -/
def completenessVariables (ds : DS) (mask : Option Var) : List String :=
  match mask with
  | none => keys ds.data_vars
  | some m => keys (ds.data_vars.filter (fun kv => m.dims.all (fun d => d ∈ kv.2.dims)))

/-- File loop of `Checker.check_completeness` (check.py lines 396-418),
threading the two loop-carried bindings of the source: `mask` (set from the
first file's `mask_variable` when still None) and `variables` (computed from
the first processed file when the parameter was omitted, then reused). -/
def completenessGo (env : String → DS) (ensure_null : Bool) (mask_variable : Option String) :
    List String → Option Var → Option (List String) →
    List (String × List String) → Except String (List (String × List String))
  | [], _mask, _vars, errors => .ok errors
  | path :: rest, mask0, vars0, errors =>
    let ds := env path
    let maskE : Except String (Option Var) :=
      match mask0, mask_variable with
      | none, some mv =>
        (match dsGet ds mv with
         | none => .error ("KeyError: " ++ mv)
         | some m => .ok (some m))
      | _, _ => .ok mask0
    match maskE with
    | .error e => .error e
    | .ok mask =>
      let vars :=
        match vars0 with
        | some vs => vs
        | none => completenessVariables ds mask
      match varsCheck ds mask ensure_null vars [] with
      | .error e => .error e
      | .ok fileErrs =>
        completenessGo env ensure_null mask_variable rest mask (some vars)
          (if fileErrs = [] then errors else errors ++ [(path, fileErrs)])

/-- Embedding of `Checker.check_completeness` (check.py lines 363-420): when
`mask_file` is given `mask_variable` must be given too and the mask is loaded
once from that file; otherwise the mask starts out None and the file loop may
set it from `mask_variable`. -/
def check_completeness (env : String → DS) (paths : List String)
    (mask_variable mask_file : Option String) (vars? : Option (List String))
    (ensure_null : Bool) : Except String (List (String × List String)) :=
  match mask_file with
  | some mf =>
    match mask_variable with
    | none => .error "please provide mask_variable along with mask_file"
    | some mv =>
      (match dsGet (env mf) mv with
       | none => .error ("KeyError: " ++ mv)
       | some m => completenessGo env ensure_null mask_variable paths (some m) vars? [])
  | none => completenessGo env ensure_null mask_variable paths none vars? []

/-- Reference behaviour used to state the amended claims about
`check_completeness`: every file is checked with one fixed mask and one fixed
variable list (a variable missing from a file is ignored here; the claims
assume all checked variables exist). -/
def checkFilesWithMask (env : String → DS) (ensure_null : Bool) (mask : Option Var)
    (vs : List String) : List String → List (String × List String)
  | [] => []
  | path :: rest =>
    (let fileErrs := vs.filter (fun v =>
       match dsGet (env path) v with
       | some da => ! varOk mask ensure_null da
       | none => false)
     if fileErrs = [] then [] else [(path, fileErrs)]) ++
    checkFilesWithMask env ensure_null mask vs rest

/-- Modelled from the spec: the per-file-mask reading of check_completeness
("a mask ... taken per-file from mask_variable within each dataset") that
claim C3 asserts; identical to `check_completeness` except that, when
mask_file is absent, the mask is re-read from `mask_variable` in every file's
own dataset instead of being kept from the first file. -/
def completenessGoPerFile (env : String → DS) (ensure_null : Bool)
    (mask_variable : Option String) (mask_from_file : Option Var) :
    List String → Option (List String) →
    List (String × List String) → Except String (List (String × List String))
  | [], _vars, errors => .ok errors
  | path :: rest, vars0, errors =>
    let ds := env path
    let maskE : Except String (Option Var) :=
      match mask_from_file, mask_variable with
      | none, some mv =>
        (match dsGet ds mv with
         | none => .error ("KeyError: " ++ mv)
         | some m => .ok (some m))
      | _, _ => .ok mask_from_file
    match maskE with
    | .error e => .error e
    | .ok mask =>
      let vars :=
        match vars0 with
        | some vs => vs
        | none => completenessVariables ds mask
      match varsCheck ds mask ensure_null vars [] with
      | .error e => .error e
      | .ok fileErrs =>
        completenessGoPerFile env ensure_null mask_variable mask_from_file rest (some vars)
          (if fileErrs = [] then errors else errors ++ [(path, fileErrs)])

/-- Modelled from the spec: top level of the per-file-mask reading of
check_completeness asserted by claim C3. -/
def check_completeness_specPerFileMask (env : String → DS) (paths : List String)
    (mask_variable mask_file : Option String) (vars? : Option (List String))
    (ensure_null : Bool) : Except String (List (String × List String)) :=
  match mask_file with
  | some mf =>
    match mask_variable with
    | none => .error "please provide mask_variable along with mask_file"
    | some mv =>
      (match dsGet (env mf) mv with
       | none => .error ("KeyError: " ++ mv)
       | some m => completenessGoPerFile env ensure_null mask_variable (some m) paths vars? [])
  | none => completenessGoPerFile env ensure_null mask_variable none paths vars? []

/-- Two-file environment separating the first-file mask from a per-file mask:
in file f1 the mask variable m is truthy, in file f2 it is falsy, and f2's
data variable x is null. -/
def exCompletenessEnv : String → DS :=
  fun p =>
    if p = "f1" then
      { data_vars := [("x", { dims := ["d"], vals := [some 5] }),
                      ("m", { dims := ["d"], vals := [some 1] })], coords := [] }
    else
      { data_vars := [("x", { dims := ["d"], vals := [none] }),
                      ("m", { dims := ["d"], vals := [some 0] })], coords := [] }

/-- Two-file environment whose explicitly requested variable s has dimensions
that do not contain the mask's dimension, yet is still checked. -/
def exC3WitnessEnv : String → DS :=
  fun p =>
    if p = "f1" then
      { data_vars := [("x", { dims := ["d"], vals := [some 5] }),
                      ("m", { dims := ["d"], vals := [some 1] }),
                      ("s", { dims := [], vals := [none] })], coords := [] }
    else
      { data_vars := [("x", { dims := ["d"], vals := [none] }),
                      ("m", { dims := ["d"], vals := [some 0] }),
                      ("s", { dims := [], vals := [none] })], coords := [] }

/-- Two-file environment where the second file has a data variable y (full of
nulls) that the first file lacks: with the variables parameter omitted, y is
never checked because the variable list comes from the first file. -/
def exC9Env : String → DS :=
  fun p =>
    if p = "f1" then
      { data_vars := [("x", { dims := ["d"], vals := [some 1] })], coords := [] }
    else
      { data_vars := [("x", { dims := ["d"], vals := [some 2] }),
                      ("y", { dims := ["d"], vals := [none] })], coords := [] }

/-- Dimension sizes of `ds.isel(**{dim: [0] for dim, size in ds.sizes.items()
if size})` (check.py lines 296-298): every non-empty dimension is reduced to
length 1, empty dimensions are untouched. -/
def iselFirstSizes (sizes : List (String × Nat)) : List (String × Nat) :=
  sizes.map (fun p => if p.2 ≠ 0 then (p.1, 1) else p)

/-- Dimension sizes of the dataset handed to the CF checker for non-NETCDF
files (check.py line 299): the write is `self.backend(path).ds.to_netcdf(...)`,
so the full dataset's sizes are written; the sampled local `ds` built on lines
296-298 is not the object written. -/
def cfCheckedSizes (backend_ds_sizes : List (String × Nat)) : List (String × Nat) :=
  backend_ds_sizes

/-- Sizes of an example dataset with one dimension of length 2, used to show
that the dataset written for the CF checker is not the 1-element sample. -/
def exCfSizes : List (String × Nat) :=
  [("x", 2)]

/-- Error raised by path resolution (check.py line 118, a ValueError carrying
the pattern; the spec names this failure NoMatchError). -/
inductive CheckError where
  | noMatch (pattern : String)
  deriving DecidableEq

/-- The mutable part of a `Checker` relevant to path resolution: the
`functools.cached_property` cache of `paths`. -/
structure CheckerState where
  files_pattern : String
  cachedPaths : Option (List String)
  deriving DecidableEq

/-- Embedding of the `Checker.paths` cached property (check.py lines 114-119).
Result, updated state, and the number of glob invocations performed: a cache
hit reuses the stored list with no glob call; otherwise the pattern is
globbed, an empty match raises (and, as with `functools.cached_property` on an
exception, nothing is cached), and a non-empty match is cached. -/
def paths_access (globFn : String → List String) (s : CheckerState) :
    Except CheckError (List String) × CheckerState × Nat :=
  match s.cachedPaths with
  | some ps => (.ok ps, s, 0)
  | none =>
    let ps := globFn s.files_pattern
    if ps.length = 0 then (.error (.noMatch s.files_pattern), s, 1)
    else (.ok ps, { s with cachedPaths := some ps }, 1)

/-- A check routine run through `self.paths_iterator`: every check body first
resolves `paths` and only then iterates files (`k` is the body of any check,
consuming the resolved path list). -/
def withPaths {α : Type} (globFn : String → List String) (s : CheckerState)
    (k : List String → α) : Except CheckError α × CheckerState × Nat :=
  match paths_access globFn s with
  | (.ok ps, s1, n) => (.ok (k ps), s1, n)
  | (.error e, s1, n) => (.error e, s1, n)

/-- Error raised by the config dispatcher: `self.config[name]` raises KeyError
when the check has no section in the configuration (check.py line 480). -/
inductive DispatchError where
  | keyError (name : String)
  deriving DecidableEq

/-- Deduplication applied by `ConfigChecker.check` (check.py lines 492-499):
when the error report's key set equals the full matched-path set and every
value equals the first one, the report collapses to a single entry keyed by
the glob pattern.  `set(errors) == set(paths)` is modelled as mutual
membership of the key lists. -/
def sameKeySet {V : Type} (errors : List (String × V)) (paths : List String) : Bool :=
  (keys errors).all (fun k => k ∈ paths) && paths.all (fun p => p ∈ keys errors)

/-- The collapse step of `ConfigChecker.check` (check.py lines 492-499).  On
an empty report with an empty path set the source would fault on `next`; the
path list is never empty there (`Checker.paths` raises on no match), so the
empty branch returns the report unchanged. -/
def dedupReport {V : Type} [DecidableEq V] (files_pattern : String)
    (paths : List String) (errors : List (String × V)) : List (String × V) :=
  if sameKeySet errors paths then
    match errors with
    | [] => errors
    | (_, v0) :: rest =>
      if rest.all (fun p => p.2 = v0) then [(files_pattern, v0)] else errors
  else errors

/-- Embedding of `ConfigChecker.check(name)` (check.py lines 479-499) together
with the list of check methods it invoked.  `config` is the loaded TOML
document (check name → section of type S), `runMethod` abstracts
`getattr(self.checker, f"check_{name}")(**kwargs)` (reflection-based argument
wiring included).  `config[name]` raises KeyError before any method runs;
otherwise the method's report goes through the deduplication collapse. -/
def configCheck {S V : Type} [DecidableEq V] (config : List (String × S))
    (paths : List String) (files_pattern : String)
    (runMethod : String → S → List (String × V)) (name : String) :
    Except DispatchError (List (String × V)) × List String :=
  match lookup config name with
  | none => (.error (.keyError name), [])
  | some args => (.ok (dedupReport files_pattern paths (runMethod name args)), [name])

/-- Outcome of one check at the CLI level (cli.py lines 114-136). -/
inductive CheckOutcome where
  | skipped
  | passed
  | failed
  deriving DecidableEq

/-- Embedding of the per-check step of the CLI loop (cli.py lines 114-136):
the SKIPPED outcome comes from the membership test `check_name not in
configchecker.config`, performed before the dispatcher is called; a
dispatcher exception or a non-empty report is FAILED, an empty report is
PASSED.  The second component is the list of check methods invoked. -/
def cliStep {S V : Type} [DecidableEq V] (config : List (String × S))
    (paths : List String) (files_pattern : String)
    (runMethod : String → S → List (String × V)) (name : String) :
    CheckOutcome × List String :=
  if (lookup config name).isSome then
    match configCheck config paths files_pattern runMethod name with
    | (.ok errors, tr) => (if errors = [] then .passed else .failed, tr)
    | (.error _, tr) => (.failed, tr)
  else (.skipped, [])

theorem lookup_append {α : Type} (l₁ l₂ : List (String × α)) (k : String) :
    lookup (l₁ ++ l₂) k =
      (match lookup l₁ k with | none => lookup l₂ k | some v => some v) := by
  induction l₁ with
  | nil => rfl
  | cons p rest ih =>
    obtain ⟨k', v'⟩ := p
    by_cases h : k' = k <;> simp [lookup, h, ih]

theorem lookup_eq_none_of_not_mem {α : Type} (l : List (String × α)) (k : String)
    (h : k ∉ keys l) : lookup l k = none := by
  induction l with
  | nil => rfl
  | cons p rest ih =>
    obtain ⟨k', v'⟩ := p
    rw [keys, List.map_cons, List.mem_cons] at h
    push_neg at h
    have h1 : ¬ k' = k := fun hc => h.1 hc.symm
    simp [lookup, h1, ih h.2]

theorem keys_check_attributes_or_sizes (expected actual : List (String × Value)) (b : Bool) :
    ∀ k, k ∈ keys (check_attributes_or_sizes expected actual b) → k ∈ keys expected := by
  induction expected with
  | nil => intro k hk; simp [check_attributes_or_sizes, keys] at hk
  | cons p rest ih =>
    obtain ⟨k', v'⟩ := p
    intro k hk
    simp only [check_attributes_or_sizes, keys, List.map_append, List.mem_append] at hk
    have hgoal : k = k' ∨ k ∈ keys rest := by
      rcases hk with hk | hk
      · left
        split at hk
        · simpa using hk
        · split at hk
          · simpa using hk
          · simp at hk
      · exact Or.inr (ih k (by simpa [keys] using hk))
    rcases hgoal with h | h
    · simp [keys, h]
    · rw [keys, List.map_cons, List.mem_cons]
      exact Or.inr h

/-- Characterisation of the shared comparison rule: the error entry recorded
for an expected key `(k, v)` (keys of `expected` unique, as in a dict). -/
theorem check_attributes_or_sizes_lookup
    (expected actual : List (String × Value)) (b : Bool) (k : String) (v : Value)
    (hnd : (keys expected).Nodup) (hmem : (k, v) ∈ expected) :
    lookup (check_attributes_or_sizes expected actual b) k =
      (match lookup actual k with
       | none => some (none : Option Value)
       | some a => if (b = true ∨ v ≠ Value.str "") ∧ a ≠ v then some (some a) else none) := by
  induction expected with
  | nil => simp at hmem
  | cons p rest ih =>
    obtain ⟨k', v'⟩ := p
    rw [keys, List.map_cons, List.nodup_cons] at hnd
    rcases List.mem_cons.mp hmem with heq | hmem'
    · have hk : k = k' := congrArg Prod.fst heq
      have hv : v = v' := congrArg Prod.snd heq
      subst hk; subst hv
      have hnotrest : k ∉ keys (check_attributes_or_sizes rest actual b) := by
        intro hc
        exact hnd.1 (by simpa [keys] using keys_check_attributes_or_sizes rest actual b k hc)
      have hrest := lookup_eq_none_of_not_mem _ _ hnotrest
      simp only [check_attributes_or_sizes, lookup_append]
      rcases hlook : lookup actual k with _ | a
      · simp [hlook, lookup, hrest]
      · by_cases hcond : (b = true ∨ v ≠ Value.str "") ∧ a ≠ v
        · simp [hlook, hcond, lookup, hrest]
        · simp [hlook, hcond, lookup, hrest]
    · have hkmem : k ∈ keys rest := by
        simpa [keys] using List.mem_map_of_mem Prod.fst hmem'
      have hkne : k' ≠ k := fun hc => hnd.1 (hc ▸ hkmem)
      simp only [check_attributes_or_sizes, lookup_append]
      rcases hlook : lookup actual k' with _ | a
      · simp [hlook, lookup, hkne, ih hnd.2 hmem']
      · by_cases hcond : (b = true ∨ v' ≠ Value.str "") ∧ a ≠ v'
        · simp [hlook, hcond, lookup, hkne, ih hnd.2 hmem']
        · simp [hlook, hcond, lookup, ih hnd.2 hmem']

theorem keys_map_toStr (l : List (String × Value)) :
    keys (l.map (fun q => (q.1, Value.str q.2.toStr))) = keys l := by
  simp [keys, List.map_map]

theorem lookup_map_str (l : List (String × String)) (k : String) :
    lookup (l.map (fun q => (q.1, Value.str q.2))) k = (lookup l k).map Value.str := by
  induction l with
  | nil => rfl
  | cons q rest ih =>
    obtain ⟨k', v'⟩ := q
    by_cases h : k' = k <;> simp [lookup, h, ih]

/-- C2: the shared comparison with always_check_value=False (as used by the
global/variable attribute and dimension checks) records, per expected key:
None when the key is absent from the actual mapping, the actual value when
the expected value is non-empty and differs from it, and nothing otherwise
(an expected empty string only requires existence); and on a file with global
attributes a="a", b="b", c="c", check_global_attributes(a="", b="b",
c="wrong", d="d") returns exactly one entry for the file with c mapped to
"c" and d mapped to None. -/
theorem claim_C2_attr_comparison (expected actual : List (String × Value))
    (k : String) (v : Value)
    (hnd : (keys expected).Nodup) (hmem : (k, v) ∈ expected) :
    (lookup (check_attributes_or_sizes expected actual false) k =
      (match lookup actual k with
       | none => some (none : Option Value)
       | some a => if v ≠ Value.str "" ∧ a ≠ v then some (some a) else none)) ∧
    check_global_attributes exGlobalAttrs exExpectedAttrs ["test.nc"] =
      [("test.nc", [("c", some (Value.str "c")), ("d", (none : Option Value))])] := by
  constructor
  · rw [check_attributes_or_sizes_lookup expected actual false k v hnd hmem]
    cases lookup actual k with
    | none => rfl
    | some a => simp
  · decide

theorem claim_C2_witness :
    (keys exExpectedAttrs).Nodup ∧ ("c", Value.str "wrong") ∈ exExpectedAttrs ∧
    lookup (check_attributes_or_sizes exExpectedAttrs (exGlobalAttrs "test.nc") false) "c" =
      some (some (Value.str "c")) := by
  refine ⟨by decide, by decide, ?_⟩
  exact ((claim_C2_attr_comparison exExpectedAttrs (exGlobalAttrs "test.nc") "c"
    (Value.str "wrong") (by decide) (by decide)).1).trans (by decide)

theorem keys_check_format (fmt : String) (version : Option String) (env : String → String)
    (paths : List String) :
    ∀ p, p ∈ keys (check_format fmt version env paths) → p ∈ paths := by
  induction paths with
  | nil => intro p hp; simp [check_format, keys] at hp
  | cons q rest ih =>
    intro p hp
    simp only [check_format, keys, List.map_append, List.mem_append] at hp
    rcases hp with hp | hp
    · have hpq : p = q := by
        split at hp
        · simp at hp
        · simpa using hp
      exact hpq ▸ List.mem_cons_self q rest
    · exact List.mem_cons_of_mem q (ih p (by simpa [keys] using hp))

theorem check_format_lookup (fmt : String) (version : Option String) (env : String → String)
    (paths : List String) (path : String) (hnd : paths.Nodup) (hmem : path ∈ paths) :
    lookup (check_format fmt version env paths) path =
      (if strStartsWith (env path) (expectedFmt fmt version) then none
       else some (env path)) := by
  induction paths with
  | nil => simp at hmem
  | cons q rest ih =>
    rcases List.mem_cons.mp hmem with heq | hmem'
    · subst heq
      have hnot : path ∉ keys (check_format fmt version env rest) := fun hc =>
        (List.nodup_cons.mp hnd).1 (keys_check_format fmt version env rest path hc)
      have hrest := lookup_eq_none_of_not_mem _ _ hnot
      simp only [check_format, lookup_append]
      by_cases hc : strStartsWith (env path) (expectedFmt fmt version) = true
      · simp [hc, lookup, hrest]
      · simp [hc, lookup]
    · have hne : q ≠ path := fun hc => (List.nodup_cons.mp hnd).1 (hc ▸ hmem')
      simp only [check_format, lookup_append]
      have hr := ih (List.nodup_cons.mp hnd).2 hmem'
      by_cases hc : strStartsWith (env q) (expectedFmt fmt version) = true
      · simpa [hc, lookup] using hr
      · simpa [hc, lookup, hne] using hr

/-- C6: check_format(version) records a file, with its full format as value,
iff the full format does not start with files_format concatenated with the
version (files_format alone when the version is absent); on two files of full
formats NETCDF4_CLASSIC and NETCDF3_CLASSIC, check_format("4") reports only
the NETCDF3 file with value "NETCDF3_CLASSIC". -/
theorem claim_C6_format (fmt : String) (version : Option String) (env : String → String)
    (paths : List String) (path : String) (hnd : paths.Nodup) (hmem : path ∈ paths) :
    (lookup (check_format fmt version env paths) path =
      (if strStartsWith (env path) (expectedFmt fmt version) then none
       else some (env path))) ∧
    check_format "NETCDF" (some "4") exFullFormat ["test.nc4", "test.nc3"] =
      [("test.nc3", "NETCDF3_CLASSIC")] :=
  ⟨check_format_lookup fmt version env paths path hnd hmem, by decide⟩

theorem claim_C6_witness :
    ["test.nc4", "test.nc3"].Nodup ∧
    lookup (check_format "NETCDF" (some "4") exFullFormat ["test.nc4", "test.nc3"])
      "test.nc3" = some "NETCDF3_CLASSIC" := by
  refine ⟨by decide, ?_⟩
  exact ((claim_C6_format "NETCDF" (some "4") exFullFormat ["test.nc4", "test.nc3"]
    "test.nc3" (by decide) (by decide)).1).trans (by decide)

theorem keys_check_spatial_resolution (des : String → List (String × String))
    (expected : List (String × Value)) (paths : List String) :
    ∀ p, p ∈ keys (check_spatial_resolution des expected paths) → p ∈ paths := by
  induction paths with
  | nil => intro p hp; simp [check_spatial_resolution, keys] at hp
  | cons q rest ih =>
    intro p hp
    simp only [check_spatial_resolution, keys, List.map_append, List.mem_append] at hp
    rcases hp with hp | hp
    · have hpq : p = q := by
        split at hp
        · simp at hp
        · simpa using hp
      exact hpq ▸ List.mem_cons_self q rest
    · exact List.mem_cons_of_mem q (ih p (by simpa [keys] using hp))

theorem check_spatial_resolution_lookup (des : String → List (String × String))
    (expected : List (String × Value)) (paths : List String) (path : String)
    (hnd : paths.Nodup) (hmem : path ∈ paths) :
    lookup (check_spatial_resolution des expected paths) path =
      (let err := check_attributes_or_sizes
          (expected.map (fun q => (q.1, Value.str q.2.toStr)))
          ((des path).map (fun q => (q.1, Value.str q.2))) true
       if err = [] then none else some err) := by
  induction paths with
  | nil => simp at hmem
  | cons q rest ih =>
    rcases List.mem_cons.mp hmem with heq | hmem'
    · subst heq
      have hnot : path ∉ keys (check_spatial_resolution des expected rest) := fun hc =>
        (List.nodup_cons.mp hnd).1 (keys_check_spatial_resolution des expected rest path hc)
      have hrest := lookup_eq_none_of_not_mem _ _ hnot
      simp only [check_spatial_resolution, lookup_append]
      by_cases hc : check_attributes_or_sizes
          (expected.map (fun q => (q.1, Value.str q.2.toStr)))
          ((des path).map (fun q => (q.1, Value.str q.2))) true = []
      · simp [hc, lookup, hrest]
      · simp [hc, lookup]
    · have hne : q ≠ path := fun hc => (List.nodup_cons.mp hnd).1 (hc ▸ hmem')
      simp only [check_spatial_resolution, lookup_append]
      have hr := ih (List.nodup_cons.mp hnd).2 hmem'
      by_cases hc : check_attributes_or_sizes
          (expected.map (fun q2 => (q2.1, Value.str q2.2.toStr)))
          ((des q).map (fun q2 => (q2.1, Value.str q2.2))) true = []
      · simpa [hc, lookup] using hr
      · simpa [hc, lookup, hne] using hr

/-- C7: the spatial (horizontal/vertical) resolution checks convert every
expected value to its string form and compare verbatim with
always_check_value=True: an expected key present in the cdo description with
a different string value always errors with the actual value, even when the
expected value is the literal empty string; and the per-file report entry is
exactly the non-empty comparison result. -/
theorem claim_C7_spatial (des : String → List (String × String))
    (expected : List (String × Value)) (paths : List String) (path k : String)
    (v : Value) (a : String)
    (hnd : (keys expected).Nodup) (hmem : (k, v) ∈ expected)
    (hpaths : paths.Nodup) (hpath : path ∈ paths)
    (hlook : lookup (des path) k = some a) (hne : a ≠ v.toStr) :
    (lookup (check_attributes_or_sizes
        (expected.map (fun q => (q.1, Value.str q.2.toStr)))
        ((des path).map (fun q => (q.1, Value.str q.2))) true) k =
      some (some (Value.str a))) ∧
    (lookup (check_spatial_resolution des expected paths) path =
      (let err := check_attributes_or_sizes
          (expected.map (fun q => (q.1, Value.str q.2.toStr)))
          ((des path).map (fun q => (q.1, Value.str q.2))) true
       if err = [] then none else some err)) ∧
    check_spatial_resolution exGridDes [("gridtype", Value.str "")] ["grid.nc"] =
      [("grid.nc", [("gridtype", some (Value.str "lonlat"))])] := by
  refine ⟨?_, check_spatial_resolution_lookup des expected paths path hpaths hpath, by decide⟩
  have hmem' : (k, Value.str v.toStr) ∈ expected.map (fun q => (q.1, Value.str q.2.toStr)) := by
    exact List.mem_map_of_mem (fun q => (q.1, Value.str q.2.toStr)) hmem
  have hnd' : (keys (expected.map (fun q => (q.1, Value.str q.2.toStr)))).Nodup := by
    rw [keys_map_toStr]; exact hnd
  rw [check_attributes_or_sizes_lookup _ _ true k (Value.str v.toStr) hnd' hmem']
  rw [lookup_map_str, hlook]
  simp [hne]

theorem claim_C7_witness :
    lookup (exGridDes "grid.nc") "gridtype" = some "lonlat" ∧
    lookup (check_attributes_or_sizes
        ([("gridtype", Value.str "")].map (fun q => (q.1, Value.str q.2.toStr)))
        ((exGridDes "grid.nc").map (fun q => (q.1, Value.str q.2))) true) "gridtype" =
      some (some (Value.str "lonlat")) := by
  refine ⟨by decide, ?_⟩
  exact (claim_C7_spatial exGridDes [("gridtype", Value.str "")] ["grid.nc"] "grid.nc"
    "gridtype" (Value.str "") "lonlat" (by decide) (by decide) (by decide) (by decide)
    (by decide) (by decide)).1

theorem lookup_min_entry_frequency (tmin? : Option Int) (x : Int) :
    lookup (match tmin? with
            | some m => if x ≠ m then [("min", TErr.time x)] else []
            | none => []) "frequency" = none := by
  rcases tmin? with _ | m
  · rfl
  · by_cases h : x ≠ m <;> simp [h, lookup]

theorem lookup_max_entry_frequency (tmax? : Option Int) (x : Int) :
    lookup (match tmax? with
            | some m => if x ≠ m then [("max", TErr.time x)] else []
            | none => []) "frequency" = none := by
  rcases tmax? with _ | m
  · rfl
  · by_cases h : x ≠ m <;> simp [h, lookup]

/-- C5: check_temporal_resolution concatenates the time coordinates of all
files into one sorted axis and, when a frequency is given, records a
"frequency" error holding the distinct consecutive differences iff the
observed axis differs in size or values from the regular axis generated from
the observed minimum to the observed maximum at that frequency; with no
frequency no "frequency" key ever appears; and on a regular 4-point monthly
axis, checking against matching bounds yields an empty report while checking
against bounds in another year yields exactly min and max errors with no
"frequency" key. -/
theorem claim_C5_temporal (tmin? tmax? : Option Int) (d : Nat)
    (timess : List (List Int)) (t : Int) (ts : List Int)
    (hj : timess.flatten = t :: ts) :
    (lookup (check_temporal_resolution tmin? tmax? (some d) timess) "frequency" =
      (if (sortTimes (t :: ts)).length ≠ (date_range (ts.foldl min t) (ts.foldl max t) d).length
          ∨ sortTimes (t :: ts) ≠ date_range (ts.foldl min t) (ts.foldl max t) d then
        some (TErr.diffs (consecutiveDiffs (sortTimes (t :: ts))).dedup)
      else none)) ∧
    (lookup (check_temporal_resolution tmin? tmax? none timess) "frequency" = none) ∧
    (check_temporal_resolution (some 0) (some 3) (some 1) [[0], [1], [2], [3]] = []) ∧
    (check_temporal_resolution (some 1200) (some 1203) (some 1) [[0], [1], [2], [3]] =
      [("min", TErr.time 0), ("max", TErr.time 3)]) := by
  refine ⟨?_, ?_, by decide, by decide⟩
  · rw [check_temporal_resolution, hj]
    simp only [lookup_append, lookup_min_entry_frequency, lookup_max_entry_frequency]
    by_cases hc : (sortTimes (t :: ts)).length ≠
        (date_range (ts.foldl min t) (ts.foldl max t) d).length
        ∨ sortTimes (t :: ts) ≠ date_range (ts.foldl min t) (ts.foldl max t) d
    · simp [hc, lookup]
    · simp [hc, lookup]
  · rw [check_temporal_resolution, hj]
    simp only [lookup_append, lookup_min_entry_frequency, lookup_max_entry_frequency]
    rfl

theorem claim_C5_witness :
    ([[0], [1], [2], [3]] : List (List Int)).flatten = 0 :: [1, 2, 3] ∧
    lookup (check_temporal_resolution (some 1200) (some 1203) (some 1)
      [[0], [1], [2], [3]]) "frequency" = none := by
  refine ⟨by decide, ?_⟩
  exact ((claim_C5_temporal (some 1200) (some 1203) 1 [[0], [1], [2], [3]] 0 [1, 2, 3]
    (by decide)).1).trans (by decide)

/-- C4: for a non-NETCDF file, the dataset written to the temporary NetCDF
file handed to the CF checker is the full `self.backend(path).ds` (check.py
line 299), not the computed 1-element-per-dimension sample: on a dataset with
one dimension of size 2, the written sizes keep size 2 while the sample would
have size 1. -/
theorem claim_C4_cf_full_dataset :
    cfCheckedSizes exCfSizes = [("x", 2)] ∧
    iselFirstSizes exCfSizes = [("x", 1)] ∧
    cfCheckedSizes exCfSizes ≠ iselFirstSizes exCfSizes := by
  refine ⟨rfl, by decide, ?_⟩
  intro h
  rw [show cfCheckedSizes exCfSizes = [("x", 2)] from rfl,
    show iselFirstSizes exCfSizes = [("x", 1)] from by decide] at h
  simp at h

theorem varsCheck_ok (ds : DS) (mask : Option Var) (en : Bool) (vs : List String)
    (errs : List String) (h : ∀ v ∈ vs, (dsGet ds v).isSome) :
    varsCheck ds mask en vs errs =
      .ok (errs ++ vs.filter (fun v =>
        match dsGet ds v with
        | some da => ! varOk mask en da
        | none => false)) := by
  induction vs generalizing errs with
  | nil => simp [varsCheck]
  | cons v vs ih =>
    obtain ⟨da, hda⟩ := Option.isSome_iff_exists.mp (h v (List.mem_cons_self v vs))
    have hrest : ∀ w ∈ vs, (dsGet ds w).isSome := fun w hw => h w (List.mem_cons_of_mem v hw)
    simp only [varsCheck, hda]
    by_cases hok : varOk mask en da
    · rw [if_pos hok, ih _ hrest]
      simp [List.filter_cons, hda, hok]
    · rw [if_neg hok, ih _ hrest]
      simp [List.filter_cons, hda, hok]

theorem completenessGo_stable (env : String → DS) (en : Bool) (mv? : Option String)
    (paths : List String) (mask0 : Option Var) (vs : List String)
    (errs : List (String × List String))
    (hstable : mask0 = none → mv? = none)
    (hvars : ∀ path ∈ paths, ∀ v ∈ vs, (dsGet (env path) v).isSome) :
    completenessGo env en mv? paths mask0 (some vs) errs =
      .ok (errs ++ checkFilesWithMask env en mask0 vs paths) := by
  induction paths generalizing errs with
  | nil => simp [completenessGo, checkFilesWithMask]
  | cons p rest ih =>
    have hrest : ∀ path ∈ rest, ∀ v ∈ vs, (dsGet (env path) v).isSome :=
      fun path hp => hvars path (List.mem_cons_of_mem p hp)
    have hhead : ∀ v ∈ vs, (dsGet (env p) v).isSome :=
      hvars p (List.mem_cons_self p rest)
    rw [completenessGo]
    · rw [varsCheck_ok (env p) mask0 en vs [] hhead]
      simp only [List.nil_append]
      rw [ih _ hrest]
      rw [checkFilesWithMask]
      by_cases hfe : vs.filter (fun v =>
          match dsGet (env p) v with
          | some da => ! varOk mask0 en da
          | none => false) = []
      · simp [hfe]
      · simp [hfe, List.append_assoc]
    · intro mv hm0 hmv
      rw [hstable hm0] at hmv
      cases hmv

/-- C3 counterexample: with mask_variable set and mask_file absent, on two
files whose mask variable differs, the code's report (first file's mask
reused) differs from the per-file-mask report the claim asserts. -/
theorem claim_C3_cex :
    check_completeness exCompletenessEnv ["f1", "f2"] (some "m") none (some ["x"]) false =
      .ok [("f2", ["x"])] ∧
    check_completeness_specPerFileMask exCompletenessEnv ["f1", "f2"] (some "m") none
      (some ["x"]) false = .ok [] ∧
    check_completeness exCompletenessEnv ["f1", "f2"] (some "m") none (some ["x"]) false ≠
      check_completeness_specPerFileMask exCompletenessEnv ["f1", "f2"] (some "m") none
        (some ["x"]) false := by
  refine ⟨rfl, rfl, ?_⟩
  intro h
  rw [show check_completeness exCompletenessEnv ["f1", "f2"] (some "m") none
      (some ["x"]) false = .ok [("f2", ["x"])] from rfl,
    show check_completeness_specPerFileMask exCompletenessEnv ["f1", "f2"] (some "m") none
      (some ["x"]) false = .ok [] from rfl] at h
  simp at h

/-- C3 amended: when check_completeness is called with mask_variable set and
mask_file absent, the mask is read once from the FIRST processed file's
dataset and reused unchanged for every subsequent file; explicitly requested
variables are all checked against that mask with no
mask-dimensions-subset filtering. -/
theorem claim_C3_first_file_mask (env : String → DS) (en : Bool) (mv : String)
    (p : String) (rest : List String) (m : Var) (vs : List String)
    (hm : dsGet (env p) mv = some m)
    (hvars : ∀ path ∈ p :: rest, ∀ v ∈ vs, (dsGet (env path) v).isSome) :
    check_completeness env (p :: rest) (some mv) none (some vs) en =
      .ok (checkFilesWithMask env en (some m) vs (p :: rest)) := by
  rw [check_completeness, completenessGo, hm]
  dsimp only
  rw [varsCheck_ok (env p) (some m) en vs []
    (hvars p (List.mem_cons_self p rest))]
  dsimp only
  rw [completenessGo_stable env en (some mv) rest (some m) vs _
    (fun hc => by cases hc)
    (fun path hp => hvars path (List.mem_cons_of_mem p hp))]
  rw [checkFilesWithMask]
  by_cases hfe : vs.filter (fun v =>
      match dsGet (env p) v with
      | some da => ! varOk (some m) en da
      | none => false) = []
  · simp [hfe]
  · simp [hfe, List.append_assoc]

theorem claim_C3_witness :
    dsGet (exC3WitnessEnv "f1") "m" = some { dims := ["d"], vals := [some 1] } ∧
    check_completeness exC3WitnessEnv ["f1", "f2"] (some "m") none (some ["x", "s"]) false =
      .ok [("f1", ["s"]), ("f2", ["x", "s"])] := by
  refine ⟨by decide, ?_⟩
  exact (claim_C3_first_file_mask exC3WitnessEnv false "m" "f1" ["f2"]
    { dims := ["d"], vals := [some 1] } ["x", "s"] (by decide)
    (by decide)).trans rfl

/-- C9: when the variables parameter is omitted, the variable list is computed
once from the first processed file (all of its data variables, filtered by
the mask-dimensions-subset rule when a mask exists) and reused unchanged for
every subsequent file, even when a later file carries other data variables. -/
theorem claim_C9_first_file_variables (env : String → DS) (en : Bool)
    (mv? : Option String) (mask? : Option Var) (p : String) (rest : List String)
    (hmask : mask? = (match mv? with | none => none | some mv => dsGet (env p) mv))
    (hsome : mv?.isSome → mask?.isSome)
    (hvars : ∀ path ∈ p :: rest, ∀ v ∈ completenessVariables (env p) mask?,
      (dsGet (env path) v).isSome) :
    check_completeness env (p :: rest) mv? none none en =
      .ok (checkFilesWithMask env en mask? (completenessVariables (env p) mask?)
        (p :: rest)) := by
  rcases mv? with _ | mv
  · have hm0 : mask? = none := by simpa using hmask
    subst hm0
    rw [check_completeness, completenessGo]
    · try dsimp only
      rw [varsCheck_ok (env p) none en _ [] (hvars p (List.mem_cons_self p rest))]
      try dsimp only
      rw [completenessGo_stable env en none rest none _ _ (fun _ => rfl)
        (fun path hp => hvars path (List.mem_cons_of_mem p hp))]
      rw [checkFilesWithMask]
      by_cases hfe : (completenessVariables (env p) none).filter (fun v =>
          match dsGet (env p) v with
          | some da => ! varOk none en da
          | none => false) = []
      · simp [hfe]
      · simp [hfe, List.append_assoc]
    · intro mv _ hmv
      cases hmv
  · obtain ⟨m, hm⟩ := Option.isSome_iff_exists.mp (hsome rfl)
    subst hm
    have hget : dsGet (env p) mv = some m := hmask.symm
    rw [check_completeness, completenessGo, hget]
    dsimp only
    rw [varsCheck_ok (env p) (some m) en _ [] (hvars p (List.mem_cons_self p rest))]
    dsimp only
    rw [completenessGo_stable env en (some mv) rest (some m) _ _
      (fun hc => by cases hc)
      (fun path hp => hvars path (List.mem_cons_of_mem p hp))]
    rw [checkFilesWithMask]
    by_cases hfe : (completenessVariables (env p) (some m)).filter (fun v =>
        match dsGet (env p) v with
        | some da => ! varOk (some m) en da
        | none => false) = []
    · simp [hfe]
    · simp [hfe, List.append_assoc]

theorem claim_C9_witness :
    completenessVariables (exC9Env "f1") none = ["x"] ∧
    check_completeness exC9Env ["f1", "f2"] none none none false = .ok [] := by
  refine ⟨by decide, ?_⟩
  exact (claim_C9_first_file_variables exC9Env false none none "f1" ["f2"] rfl
    (fun hc => by cases hc) (by decide)).trans rfl

/-- C8: Checker.paths is computed once and memoized (a later access returns
the same sequence with no further glob call and no state change); on a cache
miss with a pattern matching zero files, every check routine fails with the
no-match error before its body sees any file; on a cache miss with at least
one match, the non-empty path list is returned to the check body and no such
error occurs. -/
theorem claim_C8_paths (globFn : String → List String) (s : CheckerState) :
    (∀ (ps : List String) (s1 : CheckerState) (n : Nat),
      paths_access globFn s = (.ok ps, s1, n) →
      paths_access globFn s1 = (.ok ps, s1, 0)) ∧
    (s.cachedPaths = none → globFn s.files_pattern = [] →
      ∀ (α : Type) (k : List String → α),
        withPaths globFn s k = (.error (.noMatch s.files_pattern), s, 1)) ∧
    (s.cachedPaths = none → globFn s.files_pattern ≠ [] →
      ∀ (α : Type) (k : List String → α),
        withPaths globFn s k =
          (.ok (k (globFn s.files_pattern)),
           { s with cachedPaths := some (globFn s.files_pattern) }, 1)) := by
  refine ⟨?_, ?_, ?_⟩
  · intro ps s1 n h
    rcases hc : s.cachedPaths with _ | cached
    · by_cases hlen : (globFn s.files_pattern).length = 0
      · simp [paths_access, hc, hlen] at h
      · simp [paths_access, hc, hlen] at h
        obtain ⟨h1, h2, _⟩ := h
        subst h2
        simp [paths_access, h1]
    · simp [paths_access, hc] at h
      obtain ⟨h1, h2, _⟩ := h
      subst h2
      simp [paths_access, hc, h1]
  · intro hc he α k
    simp [withPaths, paths_access, hc, he]
  · intro hc hne α k
    have hlen : ¬ (globFn s.files_pattern).length = 0 := by simpa using hne
    simp [withPaths, paths_access, hc, hlen]

theorem claim_C8_witness :
    (CheckerState.mk "*.nc" none).cachedPaths = none ∧
    ((fun _ => ["a.nc"]) : String → List String) "*.nc" ≠ [] ∧
    withPaths (fun _ => ["a.nc"]) (CheckerState.mk "*.nc" none) (fun ps => ps.length) =
      (.ok 1, CheckerState.mk "*.nc" (some ["a.nc"]), 1) := by
  refine ⟨rfl, by decide, ?_⟩
  exact ((claim_C8_paths (fun _ => ["a.nc"]) (CheckerState.mk "*.nc" none)).2.2 rfl
    (by decide) Nat (fun ps => ps.length)).trans rfl

/-- C10: for a check name with no section in the configuration,
ConfigChecker.check raises KeyError before invoking any check method (the
invocation trace is empty), and the SKIPPED outcome is produced only at the
CLI level by the membership test run before the dispatcher is called. -/
theorem claim_C10_unconfigured {S V : Type} [DecidableEq V]
    (config : List (String × S)) (paths : List String) (files_pattern : String)
    (runMethod : String → S → List (String × V)) (name : String)
    (habs : lookup config name = none) :
    configCheck config paths files_pattern runMethod name =
      (.error (.keyError name), []) ∧
    cliStep config paths files_pattern runMethod name = (.skipped, []) := by
  constructor
  · simp [configCheck, habs]
  · simp [cliStep, habs]

theorem claim_C10_witness :
    lookup ([] : List (String × Nat)) "format" = none ∧
    configCheck ([] : List (String × Nat)) ["f.nc"] "*.nc"
      (fun _ _ => ([] : List (String × Nat))) "format" =
      (.error (.keyError "format"), []) ∧
    cliStep ([] : List (String × Nat)) ["f.nc"] "*.nc"
      (fun _ _ => ([] : List (String × Nat))) "format" = (.skipped, []) := by
  have h := claim_C10_unconfigured ([] : List (String × Nat)) ["f.nc"] "*.nc"
    (fun _ _ => ([] : List (String × Nat))) "format" rfl
  exact ⟨rfl, h.1, h.2⟩

/-- C1: ConfigChecker.check runs the configured method and applies the
deduplication collapse to its report: when the report's key set equals the
matched path set and every value equals the first, the result is the single
entry keyed by files_pattern with that shared value; when the key set differs
or some value differs from the first, the report is returned unchanged. -/
theorem claim_C1_dedup {S V : Type} [DecidableEq V] (config : List (String × S))
    (paths : List String) (files_pattern : String)
    (runMethod : String → S → List (String × V)) (name : String) (args : S)
    (hc : lookup config name = some args) :
    (configCheck config paths files_pattern runMethod name =
      (.ok (dedupReport files_pattern paths (runMethod name args)), [name])) ∧
    (∀ (k0 : String) (v0 : V) (rest : List (String × V)),
      sameKeySet ((k0, v0) :: rest) paths = true →
      rest.all (fun q => q.2 = v0) = true →
      dedupReport files_pattern paths ((k0, v0) :: rest) = [(files_pattern, v0)]) ∧
    (∀ errors : List (String × V), sameKeySet errors paths = false →
      dedupReport files_pattern paths errors = errors) ∧
    (∀ (k0 : String) (v0 : V) (rest : List (String × V)),
      rest.all (fun q => q.2 = v0) = false →
      dedupReport files_pattern paths ((k0, v0) :: rest) = (k0, v0) :: rest) := by
  refine ⟨by simp [configCheck, hc], ?_, ?_, ?_⟩
  · intro k0 v0 rest h1 h2
    simp [dedupReport, h1, h2]
  · intro errors h1
    simp [dedupReport, h1]
  · intro k0 v0 rest h2
    by_cases h1 : sameKeySet ((k0, v0) :: rest) paths = true
    · simp [dedupReport, h1, h2]
    · simp [dedupReport, h1]

theorem claim_C1_witness :
    lookup [("format", 7)] "format" = some 7 ∧
    sameKeySet [("f1", 3), ("f2", 3)] ["f1", "f2"] = true ∧
    configCheck [("format", 7)] ["f1", "f2"] "*.nc"
      (fun _ _ => [("f1", 3), ("f2", 3)]) "format" = (.ok [("*.nc", 3)], ["format"]) := by
  have h := claim_C1_dedup [("format", 7)] ["f1", "f2"] "*.nc"
    (fun _ _ => [("f1", 3), ("f2", 3)]) "format" 7 (by decide)
  refine ⟨by decide, by decide, ?_⟩
  rw [h.1, h.2.1 "f1" 3 [("f2", 3)] (by decide) (by decide)]

end DataChecker
